import Mathlib

/-!
Shallow embedding of the server core of broadcast-server.js: the session
registry (clients set and usernames map), the message router, and the
history buffer, together with proofs of the specified properties.

Conventions of the embedding:
- A WebSocket connection handle is an opaque session identifier (Nat).
- A JavaScript value that may be a string or undefined is an Option String
  (none stands for undefined); JSON.stringify drops undefined fields, so a
  field equal to none is absent from the serialized envelope.
- The usernames Map is an association list in insertion order: Map.set on a
  present key updates the value in place, on a fresh key appends at the
  tail; Map.get on a missing key and a stored undefined value both read
  back as undefined, which the model writes as Option.join of the raw
  lookup.
- readyState is owned by the transport, so routing functions take the
  instantaneous readyState of every session as a function argument.
- Timestamps (new Date().toISOString()) are opaque strings supplied by the
  caller at processing time.
-/

namespace BroadcastServer

/-- Opaque handle of one WebSocket connection. -/
abbrev SessionId := Nat

/-- The readyState constants of a WebSocket connection. -/
inductive ReadyState where
  | CONNECTING
  | OPEN
  | CLOSING
  | CLOSED
deriving Repr, DecidableEq

/-- A chat message object as constructed by the server (private or
broadcast); sender is an Option because handlePrivateMessage stores the
raw Map.get result, which can be undefined. -/
structure ChatMessage where
  type : String
  sender : Option String
  content : Option String
  timestamp : String
deriving Repr, DecidableEq

/-- A server-to-client envelope: the four send sites of the server. -/
inductive OutMsg where
  | authRequest
  | authError (content : String)
  | authSuccess (content : String) (history : List ChatMessage)
  | chat (m : ChatMessage)
deriving Repr, DecidableEq

/-- A parsed JSON value as the router reads it: only the fields the
router touches, each possibly absent (undefined). -/
structure Envelope where
  type : Option String
  username : Option String
  recipient : Option String
  content : Option String
deriving Repr, DecidableEq

/-- One inbound frame: either text that JSON.parse accepts, abstracted to
the fields the router reads, or text that fails to parse as JSON. -/
inductive Payload where
  | json (e : Envelope)
  | text (raw : String)
deriving Repr, DecidableEq

/-- The mutable state of a BroadcastServer instance: the clients Set, the
message history array and the usernames Map. -/
structure ServerState where
  clients : List SessionId
  messageHistory : List ChatMessage
  usernames : List (SessionId × Option String)
deriving Repr, DecidableEq

/-- The state of a freshly constructed BroadcastServer. -/
def initState : ServerState := { clients := [], messageHistory := [], usernames := [] }

/-- Map.prototype.get: the raw stored value, or none when the key is
absent. -/
def mapGet (m : List (SessionId × Option String)) (k : SessionId) : Option (Option String) :=
  (m.find? (fun p => p.1 == k)).map (fun p => p.2)

/-- Map.prototype.set: update in place when the key is present (keeping
its position), append otherwise. -/
def mapSet (m : List (SessionId × Option String)) (k : SessionId) (v : Option String) :
    List (SessionId × Option String) :=
  if m.any (fun p => p.1 == k) then
    m.map (fun p => if p.1 == k then (k, v) else p)
  else
    m ++ [(k, v)]

/-- messageHistory.slice(-10): the last ten entries, fewer when the
history is shorter. -/
def sliceLast10 (l : List ChatMessage) : List ChatMessage :=
  l.drop (l.length - 10)

/-- parseMessage: JSON.parse the frame; on a parse error fall back to an
object of type message whose content is the raw text. -/
def parseMessage (p : Payload) : Envelope :=
  match p with
  | .json e => e
  | .text raw => { type := some "message", username := none, recipient := none, content := some raw }

/-- handleAuth: reject with auth_error when the claimed username is
already among the stored values, else bind it and reply auth_success with
the last ten history entries. -/
def handleAuth (s : ServerState) (ws : SessionId) (username : Option String) :
    ServerState × List (SessionId × OutMsg) :=
  if (s.usernames.map (fun p => p.2)).contains username then
    (s, [(ws, OutMsg.authError "Username already taken")])
  else
    ({ s with usernames := mapSet s.usernames ws username },
     [(ws, OutMsg.authSuccess "Authentication successful" (sliceLast10 s.messageHistory))])

/-- handlePrivateMessage: look the recipient connection up as the first
usernames entry whose value strictly equals data.recipient; when found,
send the private message to the recipient and echo it to the sender, else
do nothing. -/
def handlePrivateMessage (now : String) (s : ServerState) (ws : SessionId) (data : Envelope) :
    ServerState × List (SessionId × OutMsg) :=
  let sender := (mapGet s.usernames ws).join
  match s.usernames.find? (fun p => p.2 == data.recipient) with
  | some rp =>
      let message : ChatMessage :=
        { type := "private", sender := sender, content := data.content, timestamp := now }
      (s, [(rp.1, OutMsg.chat message), (ws, OutMsg.chat message)])
  | none => (s, [])

/-- broadcast: resolve the sender name (Anonymous when the Map.get result
is falsy: absent, undefined or the empty string), construct the broadcast
message, append it to the history evicting the head past 100 entries, and
send it to every client other than the sender whose readyState is OPEN. -/
def broadcast (rs : SessionId → ReadyState) (now : String) (s : ServerState)
    (message : Option String) (sender : SessionId) :
    ServerState × List (SessionId × OutMsg) :=
  let username : String :=
    match (mapGet s.usernames sender).join with
    | none => "Anonymous"
    | some u => if u = "" then "Anonymous" else u
  let broadcastMessage : ChatMessage :=
    { type := "broadcast", sender := some username, content := message, timestamp := now }
  let h := s.messageHistory ++ [broadcastMessage]
  let h := if h.length > 100 then h.tail else h
  ({ s with messageHistory := h },
   (s.clients.filter (fun c => c != sender && rs c == ReadyState.OPEN)).map
     (fun c => (c, OutMsg.chat broadcastMessage)))

/-- The message listener installed by handleConnection: parse the frame
and dispatch on its type field; anything that is neither auth nor private
is broadcast. -/
def handleMessage (rs : SessionId → ReadyState) (now : String) (s : ServerState)
    (ws : SessionId) (p : Payload) : ServerState × List (SessionId × OutMsg) :=
  let data := parseMessage p
  if data.type == some "auth" then
    handleAuth s ws data.username
  else if data.type == some "private" then
    handlePrivateMessage now s ws data
  else
    broadcast rs now s data.content ws

/-- handleConnection: add the connection to the clients Set and send it an
auth_request. -/
def handleConnection (s : ServerState) (ws : SessionId) :
    ServerState × List (SessionId × OutMsg) :=
  ({ s with clients := if s.clients.contains ws then s.clients else s.clients ++ [ws] },
   [(ws, OutMsg.authRequest)])

/-- The close listener: delete the connection from the clients Set (the
usernames Map is not touched). -/
def handleClose (s : ServerState) (ws : SessionId) : ServerState :=
  { s with clients := s.clients.filter (fun c => c != ws) }

/-- The error listener: same state mutation as the close listener. -/
def handleError (s : ServerState) (ws : SessionId) : ServerState :=
  { s with clients := s.clients.filter (fun c => c != ws) }

/-- One event the server reacts to: a new connection, an inbound frame
(with the transport state and clock at that instant), a close, or a
transport error. -/
inductive Event where
  | connect (ws : SessionId)
  | message (ws : SessionId) (p : Payload) (rs : SessionId → ReadyState) (now : String)
  | close (ws : SessionId)
  | error (ws : SessionId)

/-- The dispatch of one event to its handler, returning the new state and
the envelopes sent, in order. -/
def step (s : ServerState) (e : Event) : ServerState × List (SessionId × OutMsg) :=
  match e with
  | .connect ws => handleConnection s ws
  | .message ws p rs now => handleMessage rs now s ws p
  | .close ws => (handleClose s ws, [])
  | .error ws => (handleError s ws, [])

/-- The state after a sequence of events (the event loop serializes all
handlers). -/
def run (s : ServerState) (es : List Event) : ServerState :=
  es.foldl (fun s e => (step s e).1) s

/-- A transport in which every connection is OPEN. -/
def allOpen : SessionId → ReadyState := fun _ => ReadyState.OPEN

/-- An auth frame claiming the given username. -/
def authMsg (u : String) : Payload :=
  .json { type := some "auth", username := some u, recipient := none, content := none }

/-- Well-formedness of the usernames Map: pairwise distinct keys (it is a
Map) and pairwise distinct stored values (enforced by handleAuth). -/
def UsernamesOk (m : List (SessionId × Option String)) : Prop :=
  m.Pairwise (fun p q => p.1 ≠ q.1 ∧ p.2 ≠ q.2)

/-- Whether an event is an inbound frame from the given session that the
router dispatches to handleAuth. -/
def isAuthFrom (e : Event) (ws : SessionId) : Bool :=
  match e with
  | .message w p _ _ => w == ws && ((parseMessage p).type == some "auth")
  | _ => false

/-- One connection followed by 150 sequential plain-text broadcasts,
numbered 1 through 150. -/
def history150 : List Event :=
  Event.connect 1 ::
    (List.range 150).map (fun i => Event.message 1 (Payload.text (toString (i + 1))) allOpen "t")

/-!
Helper lemmas: projections of the handlers, the usernames-Map operations,
and the preservation of the registry invariant along any event trace.
-/

/-- handlePrivateMessage never mutates the server state. -/
theorem fst_handlePrivateMessage (now : String) (s : ServerState) (ws : SessionId)
    (data : Envelope) : (handlePrivateMessage now s ws data).1 = s := by
  unfold handlePrivateMessage
  cases s.usernames.find? (fun p => p.2 == data.recipient) <;> rfl

/-- broadcast never mutates the usernames Map. -/
theorem usernames_broadcast (rs : SessionId → ReadyState) (now : String) (s : ServerState)
    (msg : Option String) (sender : SessionId) :
    (broadcast rs now s msg sender).1.usernames = s.usernames := rfl

/-- Map.set preserves the registry invariant when the stored value is
fresh. -/
theorem usernamesOk_mapSet (m : List (SessionId × Option String)) (k : SessionId)
    (v : Option String) (hm : UsernamesOk m) (hv : v ∉ m.map (fun p => p.2)) :
    UsernamesOk (mapSet m k v) := by
  unfold mapSet
  by_cases hany : m.any (fun p => p.1 == k) = true
  · rw [if_pos hany]
    rw [UsernamesOk, List.pairwise_map]
    refine hm.imp_of_mem ?_
    intro a b ha hb hab
    by_cases hak : a.1 = k
    · have hbk : ¬b.1 = k := fun h => hab.1 (hak.trans h.symm)
      have hbv : v ≠ b.2 := fun h => hv (h ▸ List.mem_map_of_mem (fun p => p.2) hb)
      have fa : (if a.1 == k then (k, v) else a) = (k, v) := by simp [hak]
      have fb : (if b.1 == k then (k, v) else b) = b := by simp [hbk]
      rw [fa, fb]
      exact ⟨fun h => hbk h.symm, hbv⟩
    · by_cases hbk : b.1 = k
      · have hav : v ≠ a.2 := fun h => hv (h ▸ List.mem_map_of_mem (fun p => p.2) ha)
        have fa : (if a.1 == k then (k, v) else a) = a := by simp [hak]
        have fb : (if b.1 == k then (k, v) else b) = (k, v) := by simp [hbk]
        rw [fa, fb]
        exact ⟨fun h => hak h, fun h => hav h.symm⟩
      · have fa : (if a.1 == k then (k, v) else a) = a := by simp [hak]
        have fb : (if b.1 == k then (k, v) else b) = b := by simp [hbk]
        rw [fa, fb]
        exact hab
  · rw [if_neg hany]
    rw [Bool.not_eq_true] at hany
    have hall : ∀ p ∈ m, p.1 ≠ k := by
      intro p hp hpk
      exact List.any_eq_false.mp hany p hp (by simp [hpk])
    rw [UsernamesOk, List.pairwise_append]
    refine ⟨hm, by simp, ?_⟩
    intro a ha b hb
    have hbkv : b = (k, v) := by simpa using hb
    subst hbkv
    exact ⟨hall a ha, fun h =>
      hv ((show a.2 = v from h) ▸ List.mem_map_of_mem (fun p => p.2) ha)⟩

/-- The registry invariant gives distinct stored values. -/
theorem usernamesOk_values_nodup (m : List (SessionId × Option String)) (h : UsernamesOk m) :
    (m.map (fun p => p.2)).Nodup :=
  List.pairwise_map.mpr (h.imp (fun hab => hab.2))

/-- Every event handler preserves the registry invariant. -/
theorem usernamesOk_step (s : ServerState) (e : Event) (h : UsernamesOk s.usernames) :
    UsernamesOk (step s e).1.usernames := by
  cases e with
  | connect ws => exact h
  | close ws => exact h
  | error ws => exact h
  | message ws p rs now =>
    show UsernamesOk (handleMessage rs now s ws p).1.usernames
    unfold handleMessage
    by_cases ht : ((parseMessage p).type == some "auth") = true
    · rw [if_pos ht]
      unfold handleAuth
      by_cases hc : ((s.usernames.map (fun q => q.2)).contains (parseMessage p).username) = true
      · rw [if_pos hc]
        exact h
      · rw [if_neg hc]
        exact usernamesOk_mapSet _ _ _ h (by simpa using hc)
    · rw [if_neg ht]
      by_cases hp : ((parseMessage p).type == some "private") = true
      · rw [if_pos hp, fst_handlePrivateMessage]
        exact h
      · rw [if_neg hp]
        exact h

/-- The registry invariant is preserved along any event trace. -/
theorem usernamesOk_run (es : List Event) : ∀ s : ServerState,
    UsernamesOk s.usernames → UsernamesOk (run s es).usernames := by
  induction es with
  | nil => intro s h; exact h
  | cons e t ih => intro s h; exact ih _ (usernamesOk_step s e h)

/-- In the replace branch of Map.set, the lookup of the written key finds
the written pair. -/
theorem find?_key_replace (m : List (SessionId × Option String)) (k : SessionId)
    (v : Option String) (hany : m.any (fun p => p.1 == k) = true) :
    (m.map (fun p => if p.1 == k then (k, v) else p)).find? (fun p => p.1 == k)
      = some (k, v) := by
  induction m with
  | nil => simp at hany
  | cons a t ih =>
    by_cases h : a.1 = k
    · have fa : (if a.1 == k then (k, v) else a) = (k, v) := by simp [h]
      rw [List.map_cons, fa, List.find?_cons_of_pos _ (by simp)]
    · have fa : (if a.1 == k then (k, v) else a) = a := by simp [h]
      have ht : t.any (fun p => p.1 == k) = true := by simpa [h] using hany
      rw [List.map_cons, fa, List.find?_cons_of_neg _ (by simp [h])]
      exact ih ht

/-- In the append branch of Map.set, the lookup of the written key finds
the appended pair. -/
theorem find?_key_append (m : List (SessionId × Option String)) (k : SessionId)
    (v : Option String) (hany : m.any (fun p => p.1 == k) = false) :
    (m ++ [(k, v)]).find? (fun p => p.1 == k) = some (k, v) := by
  induction m with
  | nil => simp [List.find?_cons_of_pos]
  | cons a t ih =>
    rw [List.any_cons, Bool.or_eq_false_iff] at hany
    rw [List.cons_append, List.find?_cons_of_neg _ (by simp [hany.1])]
    exact ih hany.2

/-- Map.get of a key just written by Map.set reads the written value. -/
theorem mapGet_mapSet_self (m : List (SessionId × Option String)) (k : SessionId)
    (v : Option String) : mapGet (mapSet m k v) k = some v := by
  unfold mapGet mapSet
  by_cases hany : m.any (fun p => p.1 == k) = true
  · rw [if_pos hany, find?_key_replace m k v hany]
    rfl
  · rw [Bool.not_eq_true] at hany
    rw [if_neg (by simp [hany]), find?_key_append m k v hany]
    rfl

/-- The replace branch of Map.set leaves the lookup of any other key
unchanged. -/
theorem find?_key_replace_ne (m : List (SessionId × Option String)) (k : SessionId)
    (v : Option String) (k2 : SessionId) (hne : k2 ≠ k) :
    (m.map (fun p => if p.1 == k then (k, v) else p)).find? (fun p => p.1 == k2)
      = m.find? (fun p => p.1 == k2) := by
  induction m with
  | nil => rfl
  | cons a t ih =>
    by_cases h : a.1 = k
    · have fa : (if a.1 == k then (k, v) else a) = (k, v) := by simp [h]
      rw [List.map_cons, fa, List.find?_cons_of_neg _ (by simp [hne.symm]),
        List.find?_cons_of_neg _ (by simp [h, hne.symm])]
      exact ih
    · have fa : (if a.1 == k then (k, v) else a) = a := by simp [h]
      rw [List.map_cons, fa]
      by_cases h2 : a.1 = k2
      · rw [List.find?_cons_of_pos _ (by simp [h2]), List.find?_cons_of_pos _ (by simp [h2])]
      · rw [List.find?_cons_of_neg _ (by simp [h2]), List.find?_cons_of_neg _ (by simp [h2])]
        exact ih

/-- The append branch of Map.set leaves the lookup of any other key
unchanged. -/
theorem find?_key_append_ne (m : List (SessionId × Option String)) (k : SessionId)
    (v : Option String) (k2 : SessionId) (hne : k2 ≠ k) :
    (m ++ [(k, v)]).find? (fun p => p.1 == k2) = m.find? (fun p => p.1 == k2) := by
  induction m with
  | nil => rw [List.nil_append, List.find?_cons_of_neg _ (by simp [hne.symm])]
  | cons a t ih =>
    by_cases h2 : a.1 = k2
    · rw [List.cons_append, List.find?_cons_of_pos _ (by simp [h2]),
        List.find?_cons_of_pos _ (by simp [h2])]
    · rw [List.cons_append, List.find?_cons_of_neg _ (by simp [h2]),
        List.find?_cons_of_neg _ (by simp [h2])]
      exact ih

/-- Map.get of a key other than the one written by Map.set is unchanged. -/
theorem mapGet_mapSet_ne (m : List (SessionId × Option String)) (k : SessionId)
    (v : Option String) (k2 : SessionId) (hne : k2 ≠ k) :
    mapGet (mapSet m k v) k2 = mapGet m k2 := by
  unfold mapGet mapSet
  by_cases hany : m.any (fun p => p.1 == k) = true
  · rw [if_pos hany, find?_key_replace_ne m k v k2 hne]
  · rw [if_neg hany, find?_key_append_ne m k v k2 hne]

/-- Every open client other than the sender gets the broadcast. -/
theorem broadcast_delivers (rs : SessionId → ReadyState) (now : String) (s : ServerState)
    (msg : Option String) (sender c : SessionId)
    (hc : c ∈ s.clients) (hne : c ≠ sender) (hopen : rs c = ReadyState.OPEN) :
    ∃ m', (c, OutMsg.chat m') ∈ (broadcast rs now s msg sender).2 := by
  unfold broadcast
  exact ⟨_, List.mem_map_of_mem _ (List.mem_filter.mpr ⟨hc, by simp [hne, hopen]⟩)⟩

/-- Only open clients other than the sender get any envelope from a
broadcast. -/
theorem broadcast_mem_inv (rs : SessionId → ReadyState) (now : String) (s : ServerState)
    (msg : Option String) (sender c : SessionId) (o : OutMsg)
    (h : (c, o) ∈ (broadcast rs now s msg sender).2) :
    c ∈ s.clients ∧ c ≠ sender ∧ rs c = ReadyState.OPEN := by
  unfold broadcast at h
  rw [List.mem_map] at h
  obtain ⟨a, ha, heq⟩ := h
  rw [List.mem_filter] at ha
  have hac : a = c := congrArg Prod.fst heq
  subst hac
  have hp := ha.2
  simp only [Bool.and_eq_true, bne_iff_ne, beq_iff_eq, ne_eq] at hp
  exact ⟨ha.1, hp.1, hp.2⟩

/-- Every envelope a private message produces is the one private chat
message built from the sender's raw Map.get result. -/
theorem handlePrivateMessage_chat_eq (now : String) (s : ServerState) (ws : SessionId)
    (data : Envelope) (r : SessionId) (m : ChatMessage)
    (hm : (r, OutMsg.chat m) ∈ (handlePrivateMessage now s ws data).2) :
    m = { type := "private", sender := (mapGet s.usernames ws).join,
          content := data.content, timestamp := now } := by
  unfold handlePrivateMessage at hm
  cases hf : s.usernames.find? (fun p => p.2 == data.recipient) with
  | some rp =>
    rw [hf] at hm
    simp only [List.mem_cons, List.mem_singleton, Prod.mk.injEq, OutMsg.chat.injEq,
      List.not_mem_nil, or_false] at hm
    rcases hm with ⟨_, hm⟩ | ⟨_, hm⟩ <;> exact hm
  | none =>
    rw [hf] at hm
    simp at hm

/-- Every envelope a broadcast produces is the one broadcast chat message
built from the resolved sender name. -/
theorem broadcast_chat_eq (rs : SessionId → ReadyState) (now : String) (s : ServerState)
    (msg : Option String) (sender c : SessionId) (m : ChatMessage)
    (hm : (c, OutMsg.chat m) ∈ (broadcast rs now s msg sender).2) :
    m = { type := "broadcast",
          sender := some (match (mapGet s.usernames sender).join with
            | none => "Anonymous"
            | some u => if u = "" then "Anonymous" else u),
          content := msg, timestamp := now } := by
  unfold broadcast at hm
  rw [List.mem_map] at hm
  obtain ⟨a, _, heq⟩ := hm
  have h2 := congrArg Prod.snd heq
  simp only [OutMsg.chat.injEq] at h2
  exact h2.symm

set_option maxRecDepth 10000

/-!
The claims.
-/

/-- C1: refuted by the code (the claim states the specified intent). The
close and error listeners remove the session from the clients Set but
never remove its usernames binding, so after session 1 (authenticated as
alice) disconnects, alice is still counted as taken and session 2's fresh
Authenticate claim of alice fails with auth_error instead of succeeding. -/
theorem c1_name_not_freed_after_close :
    (run initState [Event.connect 1, Event.message 1 (authMsg "alice") allOpen "t",
        Event.close 1, Event.connect 2]).clients = [2] ∧
    (run initState [Event.connect 1, Event.message 1 (authMsg "alice") allOpen "t",
        Event.close 1, Event.connect 2]).usernames = [(1, some "alice")] ∧
    (step (run initState [Event.connect 1, Event.message 1 (authMsg "alice") allOpen "t",
        Event.close 1, Event.connect 2])
      (Event.message 2 (authMsg "alice") allOpen "t")).2
      = [(2, OutMsg.authError "Username already taken")] := by
  refine ⟨?_, ?_, ?_⟩ <;> decide

/-- C2 (amended): at no instant do two sessions hold the same name: along
every event trace from the initial state the values stored in the
usernames Map stay pairwise distinct, and a claim of a currently bound
name always fails; however a session that successfully re-authenticates
under a fresh name silently releases its old name, so over time more than
one session can succeed in claiming the same name even though no session
was ever removed. -/
theorem c2_no_duplicate_names (es : List Event) :
    ((run initState es).usernames.map (fun p => p.2)).Nodup :=
  usernamesOk_values_nodup _ (usernamesOk_run es initState List.Pairwise.nil)

/-- C2 counterexample: two different sessions both ever succeed in
claiming alice with no session removed: session 1 claims alice
successfully, re-authenticates as bob, then session 2 also claims alice
successfully, and both sessions are still live at the end of the trace
(which contains no close or error event). -/
theorem c2_cex_two_successes_same_name :
    (step (run initState [Event.connect 1]) (Event.message 1 (authMsg "alice") allOpen "t")).2
      = [(1, OutMsg.authSuccess "Authentication successful" [])] ∧
    (step (run initState [Event.connect 1, Event.message 1 (authMsg "alice") allOpen "t",
        Event.message 1 (authMsg "bob") allOpen "t", Event.connect 2])
      (Event.message 2 (authMsg "alice") allOpen "t")).2
      = [(2, OutMsg.authSuccess "Authentication successful" [])] ∧
    (run initState [Event.connect 1, Event.message 1 (authMsg "alice") allOpen "t",
        Event.message 1 (authMsg "bob") allOpen "t", Event.connect 2,
        Event.message 2 (authMsg "alice") allOpen "t"]).clients = [1, 2] := by
  refine ⟨?_, ?_, ?_⟩ <;> decide

/-- C3 (amended): Authenticate fails with NameTaken exactly when the
claimed name is currently bound to any session in the usernames Map,
including the claimant itself and sessions that already disconnected, not
only when another live session holds it; on failure the state is
unchanged (the claimant keeps whatever binding it had) and the only reply
is auth_error, otherwise it succeeds, binds the name to the claimant, and
replies auth_success carrying the last ten history entries. -/
theorem c3_auth_characterization (s : ServerState) (ws : SessionId) (u : Option String) :
    ((∃ p ∈ s.usernames, p.2 = u) →
      handleAuth s ws u = (s, [(ws, OutMsg.authError "Username already taken")])) ∧
    ((∀ p ∈ s.usernames, p.2 ≠ u) →
      mapGet (handleAuth s ws u).1.usernames ws = some u ∧
      (handleAuth s ws u).2
        = [(ws, OutMsg.authSuccess "Authentication successful" (sliceLast10 s.messageHistory))]) := by
  by_cases hc : ((s.usernames.map (fun p => p.2)).contains u) = true
  · constructor
    · intro _
      unfold handleAuth
      rw [if_pos hc]
    · intro hforall
      exfalso
      have hmem : u ∈ s.usernames.map (fun p => p.2) := by simpa using hc
      rw [List.mem_map] at hmem
      obtain ⟨p, hp, hpe⟩ := hmem
      exact hforall p hp hpe
  · constructor
    · intro ⟨p, hp, hpe⟩
      exact absurd (by simpa using List.mem_map.mpr ⟨p, hp, hpe⟩) hc
    · intro _
      unfold handleAuth
      rw [if_neg hc]
      exact ⟨mapGet_mapSet_self _ _ _, rfl⟩

/-- A concrete instance of the amended C3 theorem: with alice bound to
session 1, session 2's claim of alice is rejected and the state kept. -/
theorem c3_witness :
    handleAuth { clients := [1], messageHistory := [], usernames := [(1, some "alice")] } 2
        (some "alice")
      = ({ clients := [1], messageHistory := [], usernames := [(1, some "alice")] },
         [(2, OutMsg.authError "Username already taken")]) :=
  (c3_auth_characterization
    { clients := [1], messageHistory := [], usernames := [(1, some "alice")] } 2
    (some "alice")).1 ⟨(1, some "alice"), by decide, rfl⟩

/-- C3 counterexample: a session re-claiming its own current name is
rejected although no other session holds it: after session 1
authenticates as alice the only binding of alice is session 1 itself, yet
a second auth frame for alice from session 1 is answered with
auth_error. -/
theorem c3_cex_self_claim_rejected :
    (run initState [Event.connect 1, Event.message 1 (authMsg "alice") allOpen "t"]).usernames
      = [(1, some "alice")] ∧
    (step (run initState [Event.connect 1, Event.message 1 (authMsg "alice") allOpen "t"])
      (Event.message 1 (authMsg "alice") allOpen "t")).2
      = [(1, OutMsg.authError "Username already taken")] := by
  refine ⟨?_, ?_⟩ <;> decide

/-- C4 (amended): a name binding is only ever changed by a later auth
frame from the bound session itself: every event that is not an auth
frame from that session (any frame or lifecycle event of another session,
any non-auth frame of the session itself, even its own disconnect) leaves
the binding unchanged. -/
theorem c4_binding_stable (s : ServerState) (ws : SessionId) (v : Option String) (e : Event)
    (hb : mapGet s.usernames ws = some v) (he : isAuthFrom e ws = false) :
    mapGet (step s e).1.usernames ws = some v := by
  cases e with
  | connect w => exact hb
  | close w => exact hb
  | error w => exact hb
  | message w p rs now =>
    show mapGet (handleMessage rs now s w p).1.usernames ws = some v
    unfold handleMessage
    by_cases ht : ((parseMessage p).type == some "auth") = true
    · rw [if_pos ht]
      have hw : ¬w = ws := fun hww => by simp [isAuthFrom, hww, ht] at he
      unfold handleAuth
      by_cases hc : ((s.usernames.map (fun q => q.2)).contains (parseMessage p).username) = true
      · rw [if_pos hc]
        exact hb
      · rw [if_neg hc]
        show mapGet (mapSet s.usernames w ((parseMessage p).username)) ws = some v
        rw [mapGet_mapSet_ne _ _ _ _ (fun h => hw h.symm)]
        exact hb
    · rw [if_neg ht]
      by_cases hp2 : ((parseMessage p).type == some "private") = true
      · rw [if_pos hp2, fst_handlePrivateMessage]
        exact hb
      · rw [if_neg hp2]
        exact hb

/-- A concrete instance of the C4 stability theorem: session 1's binding
survives a successful auth frame of session 2. -/
theorem c4_witness :
    mapGet (step { clients := [1, 2], messageHistory := [], usernames := [(1, some "a")] }
      (Event.message 2 (authMsg "b") allOpen "t")).1.usernames 1 = some (some "a") :=
  c4_binding_stable { clients := [1, 2], messageHistory := [], usernames := [(1, some "a")] }
    1 (some "a") (Event.message 2 (authMsg "b") allOpen "t") (by decide) (by decide)

/-- C4 counterexample: a later auth frame from the bound session itself
changes the binding while the session is live and never removed: session
1 is bound to alice, then its own auth frame claiming bob rebinds it to
bob. -/
theorem c4_cex_rebind_changes_binding :
    mapGet (run initState [Event.connect 1,
      Event.message 1 (authMsg "alice") allOpen "t"]).usernames 1 = some (some "alice") ∧
    mapGet (run initState [Event.connect 1, Event.message 1 (authMsg "alice") allOpen "t",
      Event.message 1 (authMsg "bob") allOpen "t"]).usernames 1 = some (some "bob") ∧
    (run initState [Event.connect 1, Event.message 1 (authMsg "alice") allOpen "t",
      Event.message 1 (authMsg "bob") allOpen "t"]).clients = [1] := by
  refine ⟨?_, ?_, ?_⟩ <;> decide

/-- C5 (amended): a private envelope sent by an unauthenticated session
carries sender undefined (a field JSON.stringify drops), not Anonymous;
the Anonymous default exists only on the broadcast path, where every
delivered envelope of an unauthenticated sender carries Anonymous. -/
theorem c5_unauthenticated_sender (now : String) (s : ServerState) (ws : SessionId)
    (data : Envelope) (h : mapGet s.usernames ws = none) :
    (∀ r m, (r, OutMsg.chat m) ∈ (handlePrivateMessage now s ws data).2 → m.sender = none) ∧
    (∀ (rs : SessionId → ReadyState) (msg : Option String) (c : SessionId) (m : ChatMessage),
      (c, OutMsg.chat m) ∈ (broadcast rs now s msg ws).2 → m.sender = some "Anonymous") := by
  constructor
  · intro r m hm
    rw [handlePrivateMessage_chat_eq now s ws data r m hm]
    simp [h]
  · intro rs msg c m hm
    rw [broadcast_chat_eq rs now s msg ws c m hm]
    simp [h]

/-- A concrete instance of the C5 theorem: the private envelope sent by
the unauthenticated session 1 has an undefined sender. -/
theorem c5_witness :
    mapGet [(2, some "bob")] 1 = none ∧
    ({ type := "private", sender := none, content := some "hi", timestamp := "t" }
        : ChatMessage).sender = none :=
  ⟨by decide,
   (c5_unauthenticated_sender "t"
      { clients := [1, 2], messageHistory := [], usernames := [(2, some "bob")] } 1
      { type := some "private", username := none, recipient := some "bob", content := some "hi" }
      (by decide)).1 2
      { type := "private", sender := none, content := some "hi", timestamp := "t" }
      (by decide)⟩

/-- C5 counterexample: unauthenticated session 1 sends a private message
to bob at session 2; both delivered envelopes carry sender none
(undefined, absent once serialized), not Anonymous. -/
theorem c5_cex_private_sender_undefined :
    (handlePrivateMessage "t"
        { clients := [1, 2], messageHistory := [], usernames := [(2, some "bob")] } 1
        { type := some "private", username := none, recipient := some "bob",
          content := some "hi" }).2
      = [(2, OutMsg.chat { type := "private", sender := none, content := some "hi", timestamp := "t" }),
         (1, OutMsg.chat { type := "private", sender := none, content := some "hi", timestamp := "t" })] ∧
    (none : Option String) ≠ some "Anonymous" := by
  refine ⟨?_, ?_⟩ <;> decide

/-- C6 (amended): the recipient of a private message is resolved against
the usernames Map without regard to liveness: when some Map entry holds
the recipient name - possibly the stale entry of an already-disconnected
session, which the close listener never removes - the envelope is sent to
that entry's session handle (a dead socket if its holder disconnected)
plus an echo to the sender and to nobody else, with the state unchanged;
only when no Map entry at all holds the name is nothing sent (and in no
case is an error notice sent to the sender). -/
theorem c6_private_delivery (now : String) (s : ServerState) (ws : SessionId)
    (data : Envelope) :
    ((∃ p ∈ s.usernames, p.2 = data.recipient) →
      ∃ rws m, (rws, data.recipient) ∈ s.usernames ∧
        handlePrivateMessage now s ws data
          = (s, [(rws, OutMsg.chat m), (ws, OutMsg.chat m)])) ∧
    ((∀ p ∈ s.usernames, p.2 ≠ data.recipient) →
      handlePrivateMessage now s ws data = (s, [])) := by
  constructor
  · intro ⟨p, hp, hpe⟩
    have hsome : (s.usernames.find? (fun q => q.2 == data.recipient)).isSome = true := by
      rw [List.find?_isSome]
      exact ⟨p, hp, by simp [hpe]⟩
    obtain ⟨rp, hrp⟩ := Option.isSome_iff_exists.mp hsome
    refine ⟨rp.1, { type := "private", sender := (mapGet s.usernames ws).join, content := data.content, timestamp := now }, ?_, ?_⟩
    · have h1 : rp ∈ s.usernames := List.mem_of_find?_eq_some hrp
      have h2 : rp.2 = data.recipient := by simpa using List.find?_some hrp
      have h3 : (rp.1, data.recipient) = rp := by rw [← h2]
      rw [h3]
      exact h1
    · unfold handlePrivateMessage
      rw [hrp]
  · intro hforall
    have hnone : s.usernames.find? (fun q => q.2 == data.recipient) = none := by
      rw [List.find?_eq_none]
      intro p hp
      simp only [beq_iff_eq]
      exact hforall p hp
    unfold handlePrivateMessage
    rw [hnone]

/-- C6 counterexample: in the reachable state where session 2
authenticated as bob and then disconnected (its binding leaked by the
close listener) and only session 1 is live, no live session holds bob,
yet session 1's private message to bob is delivered twice - once to the
dead handle of session 2 and once as an echo to session 1 - instead of
the zero envelopes the claim requires. -/
theorem c6_cex_stale_recipient_delivery :
    (run initState [Event.connect 2, Event.message 2 (authMsg "bob") allOpen "t",
        Event.close 2, Event.connect 1]).clients = [1] ∧
    (run initState [Event.connect 2, Event.message 2 (authMsg "bob") allOpen "t",
        Event.close 2, Event.connect 1]).usernames = [(2, some "bob")] ∧
    (step (run initState [Event.connect 2, Event.message 2 (authMsg "bob") allOpen "t",
        Event.close 2, Event.connect 1])
      (Event.message 1 (Payload.json { type := some "private", username := none, recipient := some "bob", content := some "hi" }) allOpen "t")).2
      = [(2, OutMsg.chat { type := "private", sender := none, content := some "hi", timestamp := "t" }),
         (1, OutMsg.chat { type := "private", sender := none, content := some "hi", timestamp := "t" })] := by
  refine ⟨?_, ?_, ?_⟩ <;> decide

/-- A concrete instance of the amended C6 theorem: bob at session 2 is resolved
as the recipient and the envelope goes to session 2 plus an echo to the
sending session 1. -/
theorem c6_witness :
    ∃ rws m,
      (rws, (some "bob" : Option String)) ∈ [((2 : SessionId), (some "bob" : Option String))] ∧
      handlePrivateMessage "t"
          { clients := [1, 2], messageHistory := [], usernames := [(2, some "bob")] } 1
          { type := some "private", username := none, recipient := some "bob",
            content := some "hi" }
        = ({ clients := [1, 2], messageHistory := [], usernames := [(2, some "bob")] },
           [(rws, OutMsg.chat m), (1, OutMsg.chat m)]) :=
  (c6_private_delivery "t"
    { clients := [1, 2], messageHistory := [], usernames := [(2, some "bob")] } 1
    { type := some "private", username := none, recipient := some "bob",
      content := some "hi" }).1 ⟨(2, some "bob"), by decide, rfl⟩

/-- C7: a broadcast is delivered exactly to the clients other than the
sender whose readyState is OPEN; sessions in any other transport state
receive nothing, and in particular the sender never receives its own
broadcast. -/
theorem c7_broadcast_delivery (rs : SessionId → ReadyState) (now : String) (s : ServerState)
    (msg : Option String) (sender : SessionId) :
    (∀ c, (∃ m', (c, OutMsg.chat m') ∈ (broadcast rs now s msg sender).2) ↔
      (c ∈ s.clients ∧ c ≠ sender ∧ rs c = ReadyState.OPEN)) ∧
    (∀ o, (sender, o) ∉ (broadcast rs now s msg sender).2) := by
  constructor
  · intro c
    constructor
    · intro ⟨m', hm⟩
      exact broadcast_mem_inv rs now s msg sender c (OutMsg.chat m') hm
    · intro ⟨hc, hne, hopen⟩
      exact broadcast_delivers rs now s msg sender c hc hne hopen
  · intro o ho
    exact (broadcast_mem_inv rs now s msg sender sender o ho).2.1 rfl

/-- C8: one broadcast appended to a history of at most 100 entries leaves
at most 100 entries (append at the tail, evict from the head), and after
the 150 sequential broadcasts of history150 the snapshot handed to a
newly authenticating session is exactly entries 141 through 150 in
chronological order. -/
theorem c8_history_bound_and_snapshot :
    (∀ (rs : SessionId → ReadyState) (now : String) (s : ServerState) (msg : Option String)
        (sender : SessionId), s.messageHistory.length ≤ 100 →
      (broadcast rs now s msg sender).1.messageHistory.length ≤ 100) ∧
    (handleAuth (run initState history150) 2 (some "bob")).2
      = [(2, OutMsg.authSuccess "Authentication successful"
          ((List.range' 141 10).map (fun i => { type := "broadcast", sender := some "Anonymous", content := some (toString i), timestamp := "t" })))] := by
  constructor
  · intro rs now s msg sender h
    simp only [broadcast]
    split
    next h2 =>
      simp only [List.length_tail, List.length_append, List.length_cons, List.length_nil] at h2 ⊢
      omega
    next h2 =>
      simp only [List.length_append, List.length_cons, List.length_nil] at h2 ⊢
      omega
  · decide

/-- A concrete instance of the C8 capacity bound: one broadcast on the
empty history stays within 100 entries. -/
theorem c8_witness :
    (broadcast allOpen "t" initState (some "x") 1).1.messageHistory.length ≤ 100 :=
  c8_history_bound_and_snapshot.1 allOpen "t" initState (some "x") 1 (by decide)

/-- C9: a frame that fails JSON parsing is routed identically to a
well-formed broadcast envelope whose content is the entire raw text. -/
theorem c9_raw_text_is_broadcast (rs : SessionId → ReadyState) (now : String) (s : ServerState)
    (ws : SessionId) (raw : String) :
    handleMessage rs now s ws (Payload.text raw)
      = handleMessage rs now s ws (Payload.json
          { type := some "broadcast", username := none, recipient := none,
            content := some raw }) :=
  rfl

/-- C10: eligibility to receive broadcasts is not gated on
authentication: a client with no usernames binding still receives the
broadcast envelope whenever it is in the clients Set, is not the sender
and its readyState is OPEN. -/
theorem c10_unauthenticated_receives (rs : SessionId → ReadyState) (now : String)
    (s : ServerState) (msg : Option String) (sender c : SessionId)
    (hc : c ∈ s.clients) (hne : c ≠ sender) (hopen : rs c = ReadyState.OPEN)
    (_hunauth : mapGet s.usernames c = none) :
    ∃ m', (c, OutMsg.chat m') ∈ (broadcast rs now s msg sender).2 :=
  broadcast_delivers rs now s msg sender c hc hne hopen

/-- A concrete instance of the C10 theorem: session 2, which never
authenticated, receives session 1's broadcast. -/
theorem c10_witness :
    ∃ m', ((2 : SessionId), OutMsg.chat m') ∈
      (broadcast allOpen "t" { clients := [1, 2], messageHistory := [], usernames := [] }
        (some "hi") 1).2 :=
  c10_unauthenticated_receives allOpen "t"
    { clients := [1, 2], messageHistory := [], usernames := [] }
    (some "hi") 1 2 (by decide) (by decide) rfl (by decide)

end BroadcastServer
